import Mathlib

/-!
A shallow embedding of the family_boggle server core
(`src/backend/family_boggle/`) in Lean 4, together with theorems settling the
claims about scoring, word validation, power-ups, board generation and summary
finalization.  Python strings are `String`, Python lists are `List`, Python
dicts are insertion-ordered association lists, and every use of `random.*` is
made explicit as a parameter holding the drawn values, so that each definition
is executable and each theorem about a concrete run names the concrete draws.
-/

namespace FamilyBoggle

/-- Python's `str.upper()` restricted to the ASCII letters that occur on boards
and in submitted words: uppercase every character. -/
def pyUpper (s : String) : String := String.mk (s.data.map Char.toUpper)

/-! ## scoring.py -/

/-- `LETTER_SCORES` from scoring.py; `LETTER_SCORES.get(char, 0)` yields 0 for
characters absent from the table. -/
def LETTER_SCORES (ch : Char) : Nat :=
  if ch = 'A' ∨ ch = 'E' ∨ ch = 'I' ∨ ch = 'O' ∨ ch = 'N' ∨ ch = 'R' ∨ ch = 'T'
      ∨ ch = 'L' ∨ ch = 'S' then 1
  else if ch = 'D' ∨ ch = 'G' ∨ ch = 'U' ∨ ch = 'C' ∨ ch = 'M' ∨ ch = 'P' ∨ ch = 'B' then 2
  else if ch = 'H' ∨ ch = 'F' ∨ ch = 'W' ∨ ch = 'Y' ∨ ch = 'V' ∨ ch = 'K' then 3
  else if ch = 'J' ∨ ch = 'X' then 5
  else if ch = 'Q' ∨ ch = 'Z' then 8
  else 0

/-- `calculate_word_score` from scoring.py.  The source computes
`int(base_score * multiplier)` with float multipliers 0.0 / 1.0 / 1.2 / 1.5 /
2.0 / 3.0; for every base value attainable from the letter weights the float
result equals the exact rational floor written here (`base * 6 / 5` is
`floor(base * 1.2)`, and so on).  `is_unique` defaults to `False` in the
source, which the default argument replicates; the unique branch runs only
when `total_score > 0`, exactly as in the source. -/
def calculate_word_score (word : String) (is_unique : Bool := false) : Nat :=
  let w := pyUpper word
  let base_score := (w.data.map LETTER_SCORES).sum
  let length := w.length
  let total_score :=
    if length < 3 then 0
    else if length = 3 then base_score
    else if length = 4 then base_score * 6 / 5
    else if length = 5 then base_score * 3 / 2
    else if length = 6 then base_score * 2
    else base_score * 3
  if is_unique ∧ 0 < total_score then total_score * 3 / 2 else total_score

/-! Claim C5 side: the formula exactly as the specification words it, to be
compared with the source function above. -/

/-- The per-letter weight table as the claim lists it
(A E I O N R T L S = 1; D G U C M P B = 2; H F W Y V K = 3; J X = 5;
Q Z = 8); letters are read case-insensitively. -/
def claimLetterWeight (ch : Char) : Nat :=
  if ch = 'A' ∨ ch = 'E' ∨ ch = 'I' ∨ ch = 'O' ∨ ch = 'N' ∨ ch = 'R' ∨ ch = 'T'
      ∨ ch = 'L' ∨ ch = 'S' then 1
  else if ch = 'D' ∨ ch = 'G' ∨ ch = 'U' ∨ ch = 'C' ∨ ch = 'M' ∨ ch = 'P' ∨ ch = 'B' then 2
  else if ch = 'H' ∨ ch = 'F' ∨ ch = 'W' ∨ ch = 'Y' ∨ ch = 'V' ∨ ch = 'K' then 3
  else if ch = 'J' ∨ ch = 'X' then 5
  else if ch = 'Q' ∨ ch = 'Z' then 8
  else 0

/-- `base(w)` of the claim: the sum of the per-letter weights of `w`. -/
def claimBase (w : String) : Nat := (w.data.map (fun c => claimLetterWeight c.toUpper)).sum

/-- The claim's score: `floor(base(w) * m(len w))` with m as listed, and when
`u` is true that integer multiplied by 1.5 and floored again (each floor
written as an exact natural division). -/
def claimScore (w : String) (u : Bool) : Nat :=
  let b := claimBase w
  let n := w.length
  let floored :=
    if n < 3 then 0
    else if n = 3 then b
    else if n = 4 then b * 6 / 5
    else if n = 5 then b * 3 / 2
    else if n = 6 then b * 2
    else b * 3
  if u then floored * 3 / 2 else floored

/-- C5: for every word `w` and boolean `u`, `calculate_word_score w u` equals
`floor(base(w) * m(len w))` with the claim's weight table and length
multipliers, multiplied by 1.5 and floored again when `u` is true. -/
theorem calculate_word_score_eq_claim_formula (w : String) (u : Bool) :
    calculate_word_score w u = claimScore w u := by
  obtain ⟨data⟩ := w
  have hmap : List.map (LETTER_SCORES ∘ Char.toUpper) data
      = List.map (fun c => claimLetterWeight c.toUpper) data := rfl
  have key : ∀ (T : Nat), (if u ∧ 0 < T then T * 3 / 2 else T) = (if u then T * 3 / 2 else T) := by
    intro T
    cases u with
    | false => simp
    | true =>
        by_cases h : 0 < T
        · simp [h]
        · have hz : T = 0 := Nat.eq_zero_of_not_pos h
          simp [hz]
  simp only [calculate_word_score, claimScore, claimBase, pyUpper, String.length,
    List.length_map, List.map_map, hmap]
  exact key _

/-! ## board.py : word/path validation -/

/-- A board grid as in the source: a list of rows of tile strings. -/
abbrev Grid := List (List String)

/-- Cell access `self.grid[r][c]`; every reachable access follows the bounds
check against `self.size`, and a grid smaller than `size` yields the empty
tile where Python would raise. -/
def gridAt (grid : Grid) (r c : Nat) : String := (grid.getD r []).getD c ""

/-- The adjacency test of `is_word_on_board`: for `i > 0` (a previous cell
exists) the step fails when either coordinate differs by more than 1. -/
def stepAdjacent : Option (Int × Int) → Int → Int → Bool
  | none, _, _ => true
  | some (pr, pc), r, c => ¬ (1 < (r - pr).natAbs ∨ 1 < (c - pc).natAbs)

/-- The loop of `BoggleBoard.is_word_on_board`: walk the path in step with the
characters of the uppercased word, tracking the set of used cells and the
previous cell.  The checks appear in source order: bounds, cell reuse, the
comparison `self.grid[r][c] != word[i]` of the tile string against the single
character `word[i]`, then 8-adjacency to the previous cell. -/
def isWordOnBoardLoop (size : Nat) (grid : Grid) :
    List Char → List (Int × Int) → Option (Int × Int) → List (Int × Int) → Bool
  | [], [], _, _ => true
  | [], _ :: _, _, _ => false
  | _ :: _, [], _, _ => false
  | ch :: chs, (r, c) :: rest, prev, used =>
      if ¬ (0 ≤ r ∧ r < size ∧ 0 ≤ c ∧ c < size) then false
      else if (r, c) ∈ used then false
      else if gridAt grid r.toNat c.toNat ≠ String.singleton ch then false
      else if ¬ stepAdjacent prev r c then false
      else isWordOnBoardLoop size grid chs rest (some (r, c)) ((r, c) :: used)

/-- `BoggleBoard.is_word_on_board`: `if len(word) != len(path): return False`,
then walk the path against the uppercased word. -/
def is_word_on_board (size : Nat) (grid : Grid) (word : String)
    (path : List (Int × Int)) : Bool :=
  if word.length ≠ path.length then false
  else isWordOnBoardLoop size grid (pyUpper word).data path none []

/-- The board of the claim's QU scenario: a "QU" tile at (1,1), "I" at (1,2),
"Z" at (2,1), filler "E" elsewhere. -/
def quGrid : Grid :=
  [["E", "E", "E", "E"],
   ["E", "QU", "I", "E"],
   ["E", "Z", "E", "E"],
   ["E", "E", "E", "E"]]

/-- C3 counterexample: on a board whose (1,1) cell holds the two-character tile
"QU", submitting "QUIZ" with the 3-cell path [(1,1),(1,2),(2,1)] is rejected
by `is_word_on_board` (the claim expects it accepted with the tile
contributing two characters). -/
theorem quiz_three_cell_path_rejected :
    is_word_on_board 4 quGrid "QUIZ" [(1, 1), (1, 2), (2, 1)] = false := by decide

theorem isWordOnBoardLoop_single_char (size : Nat) (grid : Grid) :
    ∀ (chs : List Char) (path : List (Int × Int)) (prev : Option (Int × Int))
      (used : List (Int × Int)),
      isWordOnBoardLoop size grid chs path prev used = true →
      chs.length = path.length ∧
        ∀ i, i < path.length →
          gridAt grid (path.getD i (0, 0)).1.toNat (path.getD i (0, 0)).2.toNat
            = String.singleton (chs.getD i ' ')
  | [], [], _, _, _ => by simp
  | [], _ :: _, prev, used, h => by simp [isWordOnBoardLoop] at h
  | _ :: _, [], prev, used, h => by simp [isWordOnBoardLoop] at h
  | ch :: chs, (r, c) :: rest, prev, used, h => by
      rw [isWordOnBoardLoop] at h
      by_cases hb : ¬ (0 ≤ r ∧ r < size ∧ 0 ≤ c ∧ c < size)
      · simp [hb] at h
      · rw [if_neg hb] at h
        by_cases hu : (r, c) ∈ used
        · simp [hu] at h
        · rw [if_neg hu] at h
          by_cases hg : gridAt grid r.toNat c.toNat ≠ String.singleton ch
          · simp [hg] at h
          · rw [if_neg hg] at h
            push_neg at hg
            by_cases ha : ¬ stepAdjacent prev r c
            · simp [ha] at h
            · rw [if_neg ha] at h
              obtain ⟨hlen, htiles⟩ :=
                isWordOnBoardLoop_single_char size grid chs rest (some (r, c))
                  ((r, c) :: used) h
              refine ⟨by simp [hlen], ?_⟩
              intro i hi
              cases i with
              | zero => simpa using hg
              | succ j =>
                  have hj : j < rest.length := by simpa using hi
                  simpa using htiles j hj

/-- C3 amended: in word-submission path validation every tile is matched as a
single character — a valid submission has exactly as many path cells as the
uppercased word has characters and each visited cell's tile string equals the
singleton of the corresponding word character, so a cell holding the
two-character tile "QU" never matches and a path of n cells can only spell a
word of exactly n characters. -/
theorem is_word_on_board_single_char_tiles (size : Nat) (grid : Grid) (word : String)
    (path : List (Int × Int)) (h : is_word_on_board size grid word path = true) :
    word.length = path.length ∧
      ∀ i, i < path.length →
        gridAt grid (path.getD i (0, 0)).1.toNat (path.getD i (0, 0)).2.toNat
          = String.singleton ((pyUpper word).data.getD i ' ') := by
  rw [is_word_on_board] at h
  by_cases hl : word.length ≠ path.length
  · simp [hl] at h
  · rw [if_neg hl] at h
    push_neg at hl
    exact ⟨hl, (isWordOnBoardLoop_single_char size grid (pyUpper word).data path none [] h).2⟩

/-- A board spelling CAT along the top row, used to witness the amended C3. -/
def catGrid : Grid :=
  [["C", "A", "T", "E"],
   ["E", "E", "E", "E"],
   ["E", "E", "E", "E"],
   ["E", "E", "E", "E"]]

/-- Witness for the amended C3 at the concrete accepted submission "CAT" along
[(0,0),(0,1),(0,2)] on `catGrid`. -/
theorem is_word_on_board_single_char_tiles_witness :
    "CAT".length = ([(0, 0), (0, 1), (0, 2)] : List (Int × Int)).length ∧
      ∀ i, i < ([(0, 0), (0, 1), (0, 2)] : List (Int × Int)).length →
        gridAt catGrid (([(0, 0), (0, 1), (0, 2)] : List (Int × Int)).getD i (0, 0)).1.toNat
            (([(0, 0), (0, 1), (0, 2)] : List (Int × Int)).getD i (0, 0)).2.toNat
          = String.singleton ((pyUpper "CAT").data.getD i ' ') :=
  is_word_on_board_single_char_tiles 4 catGrid "CAT" [(0, 0), (0, 1), (0, 2)] (by decide)

/-! ## models.py and game_engine.py

`PlayerModel` and `GameStateModel` carry the fields the engine logic touches;
the pydantic fields `ip_address` (high-score attribution only) and
`challenges` (an opaque list attached at game start and read only by the
challenge manager) play no part in any claim and are not modelled.  Python
dicts are insertion-ordered association lists; mutating an object found in a
dict is modelled by writing the updated value back at its key. -/

structure PlayerModel where
  id : String
  username : String
  character : String
  is_ready : Bool := false
  score : Nat := 0
  powerups : List String := []
  found_words : List String := []
deriving DecidableEq, Repr

structure GameStateModel where
  lobby_id : String
  status : String
  board : Grid := []
  board_size : Nat := 6
  timer : Nat := 0
  players : List PlayerModel := []
  host_id : String
deriving DecidableEq, Repr

/-- The mutable `BoggleBoard` object held in `GameEngine.board_gen`: its size
and its current grid. -/
structure BoggleBoardState where
  size : Nat
  grid : Grid
deriving DecidableEq, Repr

/-- `GameEngine` state: the lobby table, the dictionary word set (external
input, loaded at startup), and the single `board_gen` field that `__init__`
creates once for the whole engine — one `Optional[BoggleBoard]` shared by
every lobby. -/
structure GameEngine where
  lobbies : List (String × GameStateModel)
  word_set : List String
  board_gen : Option BoggleBoardState
deriving DecidableEq, Repr

structure WordSubmission where
  word : String
  path : List (Int × Int)
deriving DecidableEq, Repr

/-- The dict returned by `GameEngine.submit_word`: either the rejection form
with `valid=False` and a reason, or the acceptance form with the points, the
optionally earned powerup and the submitter's new total score. -/
inductive SubmitResult where
  | rejected (reason : String)
  | accepted (points : Nat) (powerup : Option String) (total_score : Nat)
deriving DecidableEq, Repr

/-- `DictionaryValidator.is_valid_word` over the loaded word set. -/
def is_valid_word (word_set : List String) (word : String) : Bool :=
  let w := pyUpper word
  decide (3 ≤ w.length) && word_set.contains w

/-- Write an updated lobby record back at its key (the effect of mutating the
object Python found in `self.lobbies[lobby_id]`). -/
def setLobby (e : GameEngine) (lobby_id : String) (l : GameStateModel) : GameEngine :=
  { e with lobbies := e.lobbies.map (fun q => if q.1 = lobby_id then (q.1, l) else q) }

/-- Replace the first player with the given id (the effect of mutating the
player object produced by `next(p for p in lobby.players if p.id == player_id)`). -/
def replaceFirstPlayer : List PlayerModel → String → PlayerModel → List PlayerModel
  | [], _, _ => []
  | p :: ps, pid, p' => if p.id = pid then p' :: ps else p :: replaceFirstPlayer ps pid p'

/-- `random.choice(["freeze", "blowup", "shuffle"])` with the drawn index
supplied explicitly. -/
def choosePowerup (pick : Nat) : String := ["freeze", "blowup", "shuffle"].getD (pick % 3) ""

/-- `GameEngine.submit_word`.  Returns the result dict and the engine state
after the call.  Note the path/letter check runs against `self.board_gen` —
the engine-wide generator — and the score is
`calculate_word_score(word)` with `is_unique` left at its `False` default.
`pick` is the index drawn by `random.choice` when a 5+ letter word earns a
powerup. -/
def submit_word (e : GameEngine) (lobby_id player_id : String)
    (submission : WordSubmission) (pick : Nat) : SubmitResult × GameEngine :=
  match e.lobbies.lookup lobby_id with
  | none => (.rejected "Lobby not found", e)
  | some lobby =>
    if lobby.status ≠ "playing" then (.rejected "Game not in progress", e)
    else
      match lobby.players.find? (fun p => p.id == player_id) with
      | none => (.rejected "Player not found", e)
      | some player =>
        let word := pyUpper submission.word
        if word ∈ player.found_words then (.rejected "Word already found", e)
        else
          match e.board_gen with
          | none => (.rejected "Word not on board", e)
          | some bg =>
            if ¬ is_word_on_board bg.size bg.grid word submission.path then
              (.rejected "Word not on board", e)
            else if ¬ is_valid_word e.word_set word then (.rejected "Not a valid word", e)
            else
              let points := calculate_word_score word
              let earned_powerup :=
                if 5 ≤ word.length then some (choosePowerup pick) else none
              let player' := { player with
                score := player.score + points,
                found_words := player.found_words ++ [word],
                powerups := player.powerups ++ earned_powerup.toList }
              (.accepted points earned_powerup (player.score + points),
                setLobby e lobby_id { lobby with
                  players := replaceFirstPlayer lobby.players player_id player' })

/-! Concrete states used by several claims. -/

def playerA : PlayerModel := { id := "A", username := "alice", character := "cat" }

def lobbyCat : GameStateModel :=
  { lobby_id := "L", status := "playing", board := catGrid, board_size := 4,
    players := [playerA], host_id := "A" }

def engineCat : GameEngine :=
  { lobbies := [("L", lobbyCat)], word_set := ["CAT"],
    board_gen := some { size := 4, grid := catGrid } }

def subCAT : WordSubmission := { word := "CAT", path := [(0, 0), (0, 1), (0, 2)] }

/-- C8 counterexample: the accepted in-play submission of "CAT" on `engineCat`
is credited 4 points — `calculate_word_score` at its `False` default — while
the tentative `is_unique = true` score the claim describes would be 6. -/
theorem in_play_points_not_unique_scored :
    (submit_word engineCat "L" "A" subCAT 0).1 = .accepted 4 none 4
      ∧ calculate_word_score "CAT" true = 6 ∧ (4 : Nat) ≠ 6 := by decide

/-- C8 amended: every accepted in-play submission is credited
`calculate_word_score` of the uppercased word with `is_unique = false` (the
source leaves the argument at its `False` default during play; uniqueness is
applied only at summary finalization). -/
theorem submit_word_points_use_non_unique_score (e : GameEngine)
    (lobby_id player_id : String) (submission : WordSubmission) (pick : Nat)
    (points : Nat) (pw : Option String) (total : Nat)
    (h : (submit_word e lobby_id player_id submission pick).1
      = .accepted points pw total) :
    points = calculate_word_score (pyUpper submission.word) false := by
  unfold submit_word at h
  repeat' split at h
  all_goals simp only [apply_ite Prod.fst] at h
  all_goals try split_ifs at h
  all_goals simp_all

/-- Witness for the amended C8: the accepted "CAT" submission on `engineCat`
is credited exactly the non-unique score. -/
theorem submit_word_points_use_non_unique_score_witness :
    (4 : Nat) = calculate_word_score (pyUpper "CAT") false :=
  submit_word_points_use_non_unique_score engineCat "L" "A" subCAT 0 4 none 4 (by decide)

/-! Helper lemmas about the association-list state updates. -/

theorem mem_of_lookup_eq_some {α β : Type} [BEq α] [LawfulBEq α]
    {l : List (α × β)} {k : α} {v : β} (h : l.lookup k = some v) : (k, v) ∈ l := by
  induction l with
  | nil => simp [List.lookup] at h
  | cons q rest ih =>
      obtain ⟨qk, qv⟩ := q
      simp only [List.lookup] at h
      cases hbe : k == qk with
      | true =>
          simp only [hbe] at h
          have hk := eq_of_beq hbe
          simp [hk, Option.some_inj.mp h]
      | false =>
          simp only [hbe] at h
          exact List.mem_cons_of_mem _ (ih h)

theorem mem_replaceFirstPlayer {ps : List PlayerModel} {pid : String}
    {p' q : PlayerModel} (h : q ∈ replaceFirstPlayer ps pid p') : q ∈ ps ∨ q = p' := by
  induction ps with
  | nil => simp [replaceFirstPlayer] at h
  | cons p rest ih =>
      rw [replaceFirstPlayer] at h
      by_cases hid : p.id = pid
      · rw [if_pos hid] at h
        rcases List.mem_cons.mp h with h1 | h2
        · right; exact h1
        · left; exact List.mem_cons_of_mem _ h2
      · rw [if_neg hid] at h
        rcases List.mem_cons.mp h with h1 | h2
        · left; simp [h1]
        · rcases ih h2 with h3 | h3
          · left; exact List.mem_cons_of_mem _ h3
          · right; exact h3

theorem mem_setLobby {e : GameEngine} {lid : String} {l : GameStateModel}
    {x : String × GameStateModel} (h : x ∈ (setLobby e lid l).lobbies) :
    x.2 = l ∨ x ∈ e.lobbies := by
  simp only [setLobby, List.mem_map] at h
  obtain ⟨y, hy, hxy⟩ := h
  by_cases hk : y.1 = lid
  · left; rw [← hxy]; simp [hk]
  · right; rw [← hxy]; simp [hk]; exact hy

/-- The per-player invariant from the claim: no player's found_words list
contains a duplicate, in any lobby of the engine. -/
def noDuplicateWords (e : GameEngine) : Prop :=
  ∀ le ∈ e.lobbies, ∀ p ∈ le.2.players, p.found_words.Nodup

instance (e : GameEngine) : Decidable (noDuplicateWords e) := by
  unfold noDuplicateWords; infer_instance

theorem submit_word_outcome (e : GameEngine) (lobby_id player_id : String)
    (submission : WordSubmission) (pick : Nat)
    (res : SubmitResult × GameEngine)
    (hres : submit_word e lobby_id player_id submission pick = res) :
    (∀ reason, res.1 = SubmitResult.rejected reason → res.2 = e)
    ∧ (noDuplicateWords e → noDuplicateWords res.2) := by
  unfold submit_word at hres
  cases hlook : e.lobbies.lookup lobby_id with
  | none =>
      simp only [hlook] at hres
      subst hres; exact ⟨fun _ _ => rfl, fun hinv => hinv⟩
  | some lobby =>
      simp only [hlook] at hres
      by_cases hstat : lobby.status ≠ "playing"
      · rw [if_pos hstat] at hres
        subst hres; exact ⟨fun _ _ => rfl, fun hinv => hinv⟩
      · rw [if_neg hstat] at hres
        cases hfind : lobby.players.find? (fun p => p.id == player_id) with
        | none =>
            simp only [hfind] at hres
            subst hres; exact ⟨fun _ _ => rfl, fun hinv => hinv⟩
        | some player =>
            simp only [hfind] at hres
            by_cases hword : pyUpper submission.word ∈ player.found_words
            · rw [if_pos hword] at hres
              subst hres; exact ⟨fun _ _ => rfl, fun hinv => hinv⟩
            · rw [if_neg hword] at hres
              cases hbg : e.board_gen with
              | none =>
                  simp only [hbg] at hres
                  subst hres; exact ⟨fun _ _ => rfl, fun hinv => hinv⟩
              | some bg =>
                  simp only [hbg] at hres
                  by_cases hboard : ¬ is_word_on_board bg.size bg.grid
                      (pyUpper submission.word) submission.path
                  · rw [if_pos hboard] at hres
                    subst hres; exact ⟨fun _ _ => rfl, fun hinv => hinv⟩
                  · rw [if_neg hboard] at hres
                    by_cases hdict : ¬ is_valid_word e.word_set (pyUpper submission.word)
                    · rw [if_pos hdict] at hres
                      subst hres; exact ⟨fun _ _ => rfl, fun hinv => hinv⟩
                    · rw [if_neg hdict] at hres
                      subst hres
                      refine ⟨fun reason hr => by simp at hr, ?_⟩
                      intro hinv le hle p hp
                      rcases mem_setLobby hle with hl2 | hl2
                      · rw [hl2] at hp
                        rcases mem_replaceFirstPlayer hp with hp2 | hp2
                        · exact hinv _ (mem_of_lookup_eq_some hlook) p hp2
                        · subst hp2
                          have hpl := List.mem_of_find?_eq_some hfind
                          have hnd := hinv _ (mem_of_lookup_eq_some hlook) _ hpl
                          simp only [List.nodup_append, List.nodup_cons, List.nodup_nil]
                          exact ⟨hnd, by simp, by simpa using hword⟩
                      · exact hinv le hl2 p hp

/-- C9: every rejected word submission — unknown lobby, game not in progress,
unknown player, word already found, path/letter failure or dictionary failure
— returns a rejection with a reason and leaves the engine state (scores,
found_words, powerup inventories) exactly as it was; and `submit_word`
preserves the invariant that no player's found_words contains a duplicate. -/
theorem submit_word_rejection_inert_and_no_duplicates (e : GameEngine)
    (lobby_id player_id : String) (submission : WordSubmission) (pick : Nat) :
    (∀ reason, (submit_word e lobby_id player_id submission pick).1
        = SubmitResult.rejected reason →
        (submit_word e lobby_id player_id submission pick).2 = e)
    ∧ (noDuplicateWords e →
        noDuplicateWords (submit_word e lobby_id player_id submission pick).2) :=
  submit_word_outcome e lobby_id player_id submission pick _ rfl

/-- Witness for C9: on `engineCat`, the duplicate resubmission of "CAT" after
it was accepted once is rejected and leaves the state unchanged, and the
accepted first submission preserves the no-duplicates invariant. -/
theorem submit_word_rejection_inert_witness :
    ((submit_word (submit_word engineCat "L" "A" subCAT 0).2 "L" "A" subCAT 0).2
        = (submit_word engineCat "L" "A" subCAT 0).2)
    ∧ noDuplicateWords (submit_word engineCat "L" "A" subCAT 0).2 :=
  ⟨(submit_word_rejection_inert_and_no_duplicates
        (submit_word engineCat "L" "A" subCAT 0).2 "L" "A" subCAT 0).1
      "Word already found" (by decide),
    (submit_word_rejection_inert_and_no_duplicates engineCat "L" "A" subCAT 0).2
      (by decide)⟩

/-! ## board.py : dice, playability checks and the repair passes -/

def VOWELS : List String := ["A", "E", "I", "O", "U"]

def RARE_LETTERS : List String := ["J", "X", "Q", "Z"]

def DICE_4X4 : List String :=
  ["AAEEGN", "ABBJOO", "ACHOPS", "AFFKPS",
   "AOOTTW", "CIMOTU", "DEILRX", "DELRVY",
   "DISTTY", "EEGHNW", "EEINSU", "EHRTVW",
   "EIOSST", "ELRTTY", "HIMNQU", "HLNNRZ"]

def DICE_5X5 : List String :=
  ["AAAFRS", "AAEEEE", "AAFIRS", "ADENNN", "AEEEEM",
   "AEEGMU", "AEGMNN", "AFIRSY", "BJKQXZ", "CCNSTW",
   "CEIILT", "CEILPT", "CEIPST", "DDLNOR", "DHHLOR",
   "DHHNOT", "DHLNOR", "EIIITT", "EMOTTT", "ENSSSU",
   "FIPRSY", "GORRVW", "HIPRRY", "NOOTUW", "OOOTTU"]

def DICE_6X6 : List String :=
  ["AAAFRS", "AAEEEE", "AAEEOO", "AAFIRS", "ABDEIO", "ADENNN",
   "AEEEEM", "AEEGMU", "AEGMNN", "AEILMN", "AEINOU", "AFIRSY",
   "BBJKXZ", "CCENST", "CDDLNN", "CEIILT", "CEIPST", "CFGNUY",
   "DDHNOT", "DHHLOR", "DHHNOW", "DHLNOR", "EHILRS", "EIILST",
   "EILPST", "EIORST", "EMTTTO", "ENSSSU", "GORRVW", "HIRSTV",
   "HOPRST", "IPRSYY", "JKQWXZ", "NOOTUW", "OOOTTU", "OOOTUU"]

/-- The in-bounds 8-neighborhood of a cell, in the source's iteration order
(`dr, dc ∈ [-1, 0, 1]`, skipping `(0,0)`). -/
def neighborCells (size r c : Nat) : List (Nat × Nat) :=
  ([-1, 0, 1] : List Int).flatMap (fun dr =>
    ([-1, 0, 1] : List Int).filterMap (fun dc =>
      if dr = 0 ∧ dc = 0 then none
      else
        let nr := (r : Int) + dr
        let nc := (c : Int) + dc
        if 0 ≤ nr ∧ nr < size ∧ 0 ≤ nc ∧ nc < size then some (nr.toNat, nc.toNat)
        else none))

/-- `BoggleBoard._has_adjacent_vowel`. -/
def has_adjacent_vowel (size : Nat) (grid : Grid) (r c : Nat) : Bool :=
  (neighborCells size r c).any (fun rc => VOWELS.contains (gridAt grid rc.1 rc.2))

/-- `BoggleBoard._has_adjacent_u`. -/
def has_adjacent_u (size : Nat) (grid : Grid) (r c : Nat) : Bool :=
  (neighborCells size r c).any (fun rc => gridAt grid rc.1 rc.2 == "U")

/-- Row-major scan order `for r in range(size): for c in range(size)`. -/
def allCellsRowMajor (size : Nat) : List (Nat × Nat) :=
  (List.range size).flatMap (fun r => (List.range size).map (fun c => (r, c)))

/-- `BoggleBoard._find_qs_without_u`. -/
def find_qs_without_u (size : Nat) (grid : Grid) : List (Nat × Nat) :=
  (allCellsRowMajor size).filter (fun rc =>
    gridAt grid rc.1 rc.2 == "Q" && !(has_adjacent_u size grid rc.1 rc.2))

/-- `BoggleBoard._count_landlocked_consonants`. -/
def count_landlocked_consonants (size : Nat) (grid : Grid) : Nat :=
  ((allCellsRowMajor size).filter (fun rc =>
    !(VOWELS.contains (gridAt grid rc.1 rc.2))
      && !(has_adjacent_vowel size grid rc.1 rc.2))).length

/-- Vowel census used by `_is_board_quality_acceptable`. -/
def vowelCount (size : Nat) (grid : Grid) : Nat :=
  ((allCellsRowMajor size).filter (fun rc => VOWELS.contains (gridAt grid rc.1 rc.2))).length

/-- `BoggleBoard._is_board_quality_acceptable`: no landlocked consonant, and
the size-specific vowel floor (4 / 6 / 9). -/
def is_board_quality_acceptable (size : Nat) (grid : Grid) : Bool :=
  let landlocked := count_landlocked_consonants size grid
  let vowels := vowelCount size grid
  if size = 4 then landlocked == 0 && decide (4 ≤ vowels)
  else if size = 5 then landlocked == 0 && decide (6 ≤ vowels)
  else landlocked == 0 && decide (9 ≤ vowels)

/-- `BoggleBoard._get_all_landlocked_consonants`. -/
def get_all_landlocked_consonants (size : Nat) (grid : Grid) : List (Nat × Nat × String) :=
  (allCellsRowMajor size).filterMap (fun rc =>
    let letter := gridAt grid rc.1 rc.2
    if !(VOWELS.contains letter) && !(has_adjacent_vowel size grid rc.1 rc.2) then
      some (rc.1, rc.2, letter)
    else none)

/-- Write one cell of the grid. -/
def setCell (grid : Grid) (r c : Nat) (v : String) : Grid :=
  grid.set r ((grid.getD r []).set c v)

/-- Swap the contents of two cells (the tuple-assignment swap of the source). -/
def swapCells (grid : Grid) (a b : Nat × Nat) : Grid :=
  let va := gridAt grid a.1 a.2
  let vb := gridAt grid b.1 b.2
  setCell (setCell grid a.1 a.2 vb) b.1 b.2 va

/-- Manhattan distance `abs(r - lr) + abs(c - lc)`. -/
def manhattan (a b : Nat × Nat) : Nat :=
  ((a.1 : Int) - b.1).natAbs + ((a.2 : Int) - b.2).natAbs

/-- The `(r, c, dist, is_adjacent)` vowel list of `_fix_landlocked_consonants`,
in scan order, before its random-tie-broken sort by distance. -/
def vowels_with_dist (size : Nat) (grid : Grid) (lr lc : Nat) :
    List (Nat × Nat × Nat × Bool) :=
  (allCellsRowMajor size).filterMap (fun rc =>
    if VOWELS.contains (gridAt grid rc.1 rc.2) then
      let dist := manhattan rc (lr, lc)
      let isAdj := decide (((rc.1 : Int) - lr).natAbs ≤ 1)
        && decide (((rc.2 : Int) - lc).natAbs ≤ 1) && decide (0 < dist)
      some (rc.1, rc.2, dist, isAdj)
    else none)

/-- The would-the-consonant-have-a-vowel check of `_fix_landlocked_consonants`:
some neighbor of the vowel position, other than the consonant's own cell,
holds a vowel. -/
def would_have_vowel (size : Nat) (grid : Grid) (vr vc lr lc : Nat) : Bool :=
  (neighborCells size vr vc).any (fun rc =>
    rc != (lr, lc) && VOWELS.contains (gridAt grid rc.1 rc.2))

/-- Explicit stand-ins for the random-dependent steps of the repair passes:
`sortLandlocked` is the outcome of `landlocked.sort(key=(letter not in
RARE_LETTERS, random.random()))`, `sortVowels` the outcome of
`vowels_with_dist.sort(key=(dist, random.random()))`, and `chooseAdj` the
outcome of `random.choice` over a non-empty adjacency list. -/
structure RandOracle where
  sortLandlocked : List (Nat × Nat × String) → List (Nat × Nat × String)
  sortVowels : List (Nat × Nat × Nat × Bool) → List (Nat × Nat × Nat × Bool)
  chooseAdj : List (Nat × Nat) → Nat × Nat

/-- The inner vowel loop of `_fix_landlocked_consonants`: walk the sorted
vowel list; an adjacent vowel is used only when the swap leaves the consonant
a vowel neighbor, the first non-adjacent vowel is swapped in directly; `none`
when the loop falls through to its `else` clause. -/
def try_vowel_swap (size : Nat) (grid : Grid) (lr lc : Nat) :
    List (Nat × Nat × Nat × Bool) → Option Grid
  | [] => none
  | (vr, vc, _, isAdj) :: rest =>
      if isAdj then
        if would_have_vowel size grid vr vc lr lc then
          some (swapCells grid (lr, lc) (vr, vc))
        else try_vowel_swap size grid lr lc rest
      else some (swapCells grid (lr, lc) (vr, vc))

/-- One pass over the sorted landlocked list: skip entries with no vowels on
the board (`continue`), and at the first entry with vowels perform the chosen
swap — falling back to the closest vowel — and stop (`break`). -/
def fix_landlocked_step (o : RandOracle) (size : Nat) (grid : Grid) :
    List (Nat × Nat × String) → Grid
  | [] => grid
  | (lr, lc, _) :: rest =>
      let vd := o.sortVowels (vowels_with_dist size grid lr lc)
      if vd.isEmpty then fix_landlocked_step o size grid rest
      else
        match try_vowel_swap size grid lr lc vd with
        | some g => g
        | none =>
            match vd with
            | (vr, vc, _, _) :: _ => swapCells grid (lr, lc) (vr, vc)
            | [] => grid

/-- `BoggleBoard._fix_landlocked_consonants`: up to `max_fix_attempts = 50`
iterations, each recomputing the landlocked list, stopping early only when it
is empty. -/
def fix_landlocked_consonants (o : RandOracle) (size : Nat) : Nat → Grid → Grid
  | 0, grid => grid
  | fuel + 1, grid =>
      let landlocked := get_all_landlocked_consonants size grid
      if landlocked.isEmpty then grid
      else fix_landlocked_consonants o size fuel
        (fix_landlocked_step o size grid (o.sortLandlocked landlocked))

/-- The spare-U positions for a Q: cells holding "U" not already adjacent to
the Q. -/
def u_positions (size : Nat) (grid : Grid) (qr qc : Nat) : List (Nat × Nat) :=
  (allCellsRowMajor size).filter (fun rc =>
    gridAt grid rc.1 rc.2 == "U"
      && (decide (1 < ((rc.1 : Int) - qr).natAbs) || decide (1 < ((rc.2 : Int) - qc).natAbs)))

/-- The no-spare-U branch of `_fix_q_without_u`: upgrade an adjacent vowel to
"U", or swap a random adjacent cell with the first vowel found in scan order
and make it "U". -/
def create_u_near_q (o : RandOracle) (size : Nat) (grid : Grid) (qr qc : Nat) : Grid :=
  let adjacent := neighborCells size qr qc
  match adjacent.find? (fun rc => VOWELS.contains (gridAt grid rc.1 rc.2)) with
  | some av => setCell grid av.1 av.2 "U"
  | none =>
      if adjacent.isEmpty then grid
      else
        let ad := o.chooseAdj adjacent
        match (allCellsRowMajor size).find? (fun rc =>
            VOWELS.contains (gridAt grid rc.1 rc.2) && rc != ad) with
        | some v => setCell (swapCells grid ad v) ad.1 ad.2 "U"
        | none => grid

/-- The first adjacent cell a U may be swapped into: not the Q itself and not
another Q. -/
def find_swappable_adj (grid : Grid) (q : Nat × Nat) : List (Nat × Nat) → Option (Nat × Nat)
  | [] => none
  | a :: rest =>
      if a == q then find_swappable_adj grid q rest
      else if gridAt grid a.1 a.2 == "Q" then find_swappable_adj grid q rest
      else some a

/-- The U-swapping double loop of `_fix_q_without_u`: for the first U (in
distance order) with a usable adjacent cell, swap them. -/
def swap_first_u (grid : Grid) (q : Nat × Nat) (adjacent : List (Nat × Nat)) :
    List (Nat × Nat) → Grid
  | [] => grid
  | u :: us =>
      match find_swappable_adj grid q adjacent with
      | some a => swapCells grid u a
      | none => swap_first_u grid q adjacent us

/-- One outer iteration of `_fix_q_without_u` over the Q-without-U list:
Qs with no spare U run the create-U fallback and continue; the first Q with
spare Us gets the closest U swapped next to it and the iteration stops. -/
def fix_q_step (o : RandOracle) (size : Nat) (grid : Grid) : List (Nat × Nat) → Grid
  | [] => grid
  | (qr, qc) :: rest =>
      let uPos := u_positions size grid qr qc
      if uPos.isEmpty then fix_q_step o size (create_u_near_q o size grid qr qc) rest
      else
        let adjacent := neighborCells size qr qc
        let uSorted := List.insertionSort
          (fun a b => manhattan a (qr, qc) ≤ manhattan b (qr, qc)) uPos
        swap_first_u grid (qr, qc) adjacent uSorted

/-- `BoggleBoard._fix_q_without_u`: up to `max_attempts = 20` iterations,
stopping early only when no Q lacks an adjacent U. -/
def fix_q_without_u (o : RandOracle) (size : Nat) : Nat → Grid → Grid
  | 0, grid => grid
  | fuel + 1, grid =>
      let qs := find_qs_without_u size grid
      if qs.isEmpty then grid
      else fix_q_without_u o size fuel (fix_q_step o size grid qs)

/-- One generation attempt: `random.shuffle(dice)` yields the index
permutation `perm`, and `random.choice(d)` for the j-th shuffled die picks the
face with index `faces j`; every face of every die set is a single letter, so
a tile is the singleton string of the picked character. -/
def rollLetters (dice : List String) (perm faces : List Nat) : List String :=
  (perm.zip faces).map (fun pf =>
    String.singleton ((dice.getD pf.1 "").data.getD pf.2 'A'))

/-- `letters[i*size:(i+1)*size]` row-major arrangement. -/
def arrangeGrid (size : Nat) (letters : List String) : Grid :=
  (List.range size).map (fun i => (letters.drop (i * size)).take size)

/-- The attempt loop of `BoggleBoard.generate`: countdown over the remaining
attempts, keeping the most recent grid; on exhaustion run
`_fix_landlocked_consonants` then `_fix_q_without_u` on it. -/
def generateLoop (size : Nat) (dice : List String) (rolls : Nat → List Nat × List Nat)
    (o : RandOracle) : Nat → Nat → Grid → Grid
  | 0, _, g => fix_q_without_u o size 20 (fix_landlocked_consonants o size 50 g)
  | fuel + 1, i, _ =>
      let letters := rollLetters dice (rolls i).1 (rolls i).2
      let g := arrangeGrid size letters
      if is_board_quality_acceptable size g && (find_qs_without_u size g).isEmpty then g
      else generateLoop size dice rolls o fuel (i + 1) g

/-- `BoggleBoard.generate`: select the dice set for the size and run the
30-attempt loop. -/
def generateGrid (size : Nat) (rolls : Nat → List Nat × List Nat) (o : RandOracle) : Grid :=
  let dice := if size = 4 then DICE_4X4 else if size = 5 then DICE_5X5 else DICE_6X6
  generateLoop size dice rolls o 30 0 []

/-- The playability invariant exactly as the claim states it: every consonant
(non-vowel) cell has at least one vowel in its 8-neighborhood, and every Q
cell has at least one adjacent U. -/
def playabilityInvariant (size : Nat) (grid : Grid) : Bool :=
  (allCellsRowMajor size).all (fun rc =>
    (VOWELS.contains (gridAt grid rc.1 rc.2) || has_adjacent_vowel size grid rc.1 rc.2)
    && (gridAt grid rc.1 rc.2 != "Q" || has_adjacent_u size grid rc.1 rc.2))

/-- Sort key of the landlocked sort: `letter not in RARE_LETTERS` — rare
letters first. -/
def rareRank (x : Nat × Nat × String) : Nat :=
  if RARE_LETTERS.contains x.2.2 then 0 else 1

/-- A concrete admissible outcome for the random steps: each random-tie-broken
sort comes out as the stable sort by its deterministic primary key (the tie
draws happen to be increasing), and `random.choice` picks the first element. -/
def oracleFirst : RandOracle where
  sortLandlocked l := List.insertionSort (fun a b => rareRank a ≤ rareRank b) l
  sortVowels l := List.insertionSort (fun a b => a.2.2.1 ≤ b.2.2.1) l
  chooseAdj l := l.getD 0 (0, 0)

/-- An attempt outcome in which every die of the 4x4 set shows a consonant
face (face indices into the die strings of `DICE_4X4`, identity shuffle):
the rolled letters are G B C F T C D D D G N H S L H H — no vowel and no Q. -/
def consonantRoll : List Nat × List Nat :=
  ([0, 1, 2, 3, 4, 5, 6, 7, 8, 9, 10, 11, 12, 13, 14, 15],
   [4, 1, 1, 1, 3, 0, 0, 0, 0, 2, 3, 1, 3, 1, 0, 0])

/-- C6 (the code violates the claim): when all 30 generation attempts roll the
all-consonant outcome `consonantRoll` — each draw being a legal die face and
the shuffle the identity permutation — the quality gate fails every attempt,
both repair passes run and give up at their attempt caps (with no vowel on
the board there is nothing to swap in), and `generate` returns a grid that
still violates the playability invariant, contradicting "the pass only stops
when the predicate holds". -/
theorem generate_can_return_unplayable_grid :
    playabilityInvariant 4 (generateGrid 4 (fun _ => consonantRoll) oracleFirst) = false
    ∧ consonantRoll.1.Perm (List.range 16)
    ∧ consonantRoll.2.all (fun f => f < 6) = true := by decide

/-! ## powerups.py -/

/-- `PowerUpManager` state.  The wall-clock bookkeeping (`active_freezes`,
`blocked_cells`, `block_end_time`, all keyed to `time.time()` floats) is
outside the claims; the lock/override maps are the two-level dicts
`armed_locks : lobby_id -> player_id -> saved board` and
`player_boards : lobby_id -> player_id -> board override`. -/
structure PowerUpManager where
  armed_locks : List (String × List (String × Grid)) := []
  player_boards : List (String × List (String × Grid)) := []
deriving DecidableEq, Repr

/-- `inner[k] = v` on an inner dict. -/
def setKey (inner : List (String × Grid)) (k : String) (v : Grid) : List (String × Grid) :=
  match inner.lookup k with
  | none => inner ++ [(k, v)]
  | some _ => inner.map (fun q => if q.1 = k then (q.1, v) else q)

/-- `m[k1][k2] = v` on a two-level dict whose `k1` entry already exists. -/
def setNested (m : List (String × List (String × Grid))) (k1 k2 : String) (v : Grid) :
    List (String × List (String × Grid)) :=
  m.map (fun q => if q.1 = k1 then (q.1, setKey q.2 k2 v) else q)

/-- `PowerUpManager.get_player_board`: the player's protected board when one
is present, else the default lobby board. -/
def get_player_board (pm : PowerUpManager) (lobby_id player_id : String)
    (default_board : Grid) : Grid :=
  match pm.player_boards.lookup lobby_id with
  | some boards =>
      match boards.lookup player_id with
      | some b => b
      | none => default_board
  | none => default_board

/-- `PowerUpManager.arm_lock`: create the lobby entry if absent and save a
copy of the current board as the player's armed lock. -/
def arm_lock (pm : PowerUpManager) (lobby_id player_id : String)
    (current_board : Grid) : PowerUpManager :=
  let locks :=
    match pm.armed_locks.lookup lobby_id with
    | none => pm.armed_locks ++ [(lobby_id, [])]
    | some _ => pm.armed_locks
  { pm with armed_locks := setNested locks lobby_id player_id current_board }

/-- `PowerUpManager.consume_locks`: move every armed lock of the lobby into
`player_boards` (the per-player overrides), clear the lobby's armed-lock
dict, and return the map of protected players. -/
def consume_locks (pm : PowerUpManager) (lobby_id : String) :
    List (String × Grid) × PowerUpManager :=
  match pm.armed_locks.lookup lobby_id with
  | none => ([], pm)
  | some locks =>
      let withLobby :=
        match pm.player_boards.lookup lobby_id with
        | none => pm.player_boards ++ [(lobby_id, [])]
        | some _ => pm.player_boards
      let updated := locks.foldl (fun acc pb => setNested acc lobby_id pb.1 pb.2) withLobby
      let cleared := pm.armed_locks.map
        (fun q => if q.1 = lobby_id then (q.1, ([] : List (String × Grid))) else q)
      (locks, { pm with player_boards := updated, armed_locks := cleared })

/-- The attribute names defined on `PowerUpManager`: the five dicts created in
`__init__` and the methods of the class.  Python resolves
`powerup_manager.<name>` against exactly these. -/
def PowerUpManagerAttributes : List String :=
  ["active_freezes", "blocked_cells", "block_end_time", "armed_locks", "player_boards",
   "apply_powerup", "is_frozen", "get_blocked_cells", "arm_lock", "has_armed_lock",
   "get_locked_players", "consume_locks", "get_player_board",
   "sync_player_to_lobby_board", "clear_lobby"]

def pumHasAttribute (name : String) : Bool := PowerUpManagerAttributes.contains name

/-! ### C1: word validation never consults the per-player board view -/

/-- A board with no C anywhere: the lobby board / generator grid in the C1
scenario. -/
def plainEGrid : Grid :=
  [["E", "E", "E", "E"],
   ["E", "E", "E", "E"],
   ["E", "E", "E", "E"],
   ["E", "E", "E", "E"]]

def lobbyLocked : GameStateModel :=
  { lobby_id := "L", status := "playing", board := plainEGrid, board_size := 4,
    players := [playerA], host_id := "A" }

def engineLocked : GameEngine :=
  { lobbies := [("L", lobbyLocked)], word_set := ["CAT"],
    board_gen := some { size := 4, grid := plainEGrid } }

/-- Player A holds a board override (their retained board from a lock),
`catGrid`, on which CAT lies along the top row. -/
def pmLocked : PowerUpManager :=
  { armed_locks := [], player_boards := [("L", [("A", catGrid)])] }

/-- C1 (the code violates the claim): player A's effective board view
`get_player_board` is the override `catGrid` and CAT is valid on it along
[(0,0),(0,1),(0,2)], yet `submit_word` rejects A's submission with
"Word not on board" (leaving the state unchanged), because the path check
runs against the engine-wide `board_gen` grid and never consults
`get_player_board`. -/
theorem submit_word_ignores_board_override :
    get_player_board pmLocked "L" "A" lobbyLocked.board = catGrid
    ∧ is_word_on_board 4 (get_player_board pmLocked "L" "A" lobbyLocked.board)
        "CAT" subCAT.path = true
    ∧ (submit_word engineLocked "L" "A" subCAT 0).1
        = SubmitResult.rejected "Word not on board"
    ∧ (submit_word engineLocked "L" "A" subCAT 0).2 = engineLocked := by decide

/-! ### C2: the shuffle branch of the websocket handler -/

/-- The `board_update` event the shuffle branch would broadcast. -/
structure BoardUpdateEvent where
  board : Grid
  protected_players : List String
  protected_boards : Option (List (String × Grid))
  shuffled_by : String
deriving DecidableEq, Repr

/-- The observable outcome of the `use_powerup` shuffle branch: the engine and
powerup-manager states when the branch finishes or the exception aborts it,
the broadcast `board_update` event if one was sent, and the raised error if
any. -/
structure ShuffleOutcome where
  engine : GameEngine
  pm : PowerUpManager
  broadcast : Option BoardUpdateEvent
  error : Option String
deriving Repr

/-- The shuffle branch of the websocket handler (main.py): regenerate the
shared board generator (`game_engine.board_gen.generate()`), write the new
grid into the lobby, then call
`powerup_manager.consume_locks_for_shuffle(lobby_id, new_board)`.
`PowerUpManager` defines no attribute of that name
(`PowerUpManagerAttributes`), so attribute resolution raises AttributeError
at that call: no lock is consumed and no `board_update` is broadcast, but the
board regeneration has already happened. -/
def use_powerup_shuffle (e : GameEngine) (pm : PowerUpManager)
    (lobby_id player_id : String) (rolls : Nat → List Nat × List Nat)
    (o : RandOracle) : ShuffleOutcome :=
  match e.lobbies.lookup lobby_id, e.board_gen with
  | some lobby, some bg =>
      let newGrid := generateGrid bg.size rolls o
      let e2 := { setLobby e lobby_id { lobby with board := newGrid }
        with board_gen := some { bg with grid := newGrid } }
      if pumHasAttribute "consume_locks_for_shuffle" then
        -- never taken: the attribute is absent from the class
        { engine := e2, pm := pm, broadcast := none, error := none }
      else
        { engine := e2, pm := pm, broadcast := none,
          error := some "AttributeError: consume_locks_for_shuffle" }
  | _, _ => { engine := e, pm := pm, broadcast := none, error := some "lookup failure" }

def playerB : PlayerModel :=
  { id := "B", username := "bob", character := "dog", powerups := ["shuffle"] }

def lobbyShuf : GameStateModel :=
  { lobby_id := "L", status := "playing", board := catGrid, board_size := 4,
    players := [playerA, playerB], host_id := "A" }

def engineShuf : GameEngine :=
  { lobbies := [("L", lobbyShuf)], word_set := ["CAT"],
    board_gen := some { size := 4, grid := catGrid } }

/-- Player A armed a lock while the lobby board was `catGrid`. -/
def pmArmed : PowerUpManager :=
  { armed_locks := [("L", [("A", catGrid)])], player_boards := [] }

/-- A vowel-heavy attempt outcome for the 4x4 dice (identity shuffle, legal
face indices) that the quality gate accepts on the first attempt. -/
def vowelRoll : List Nat × List Nat :=
  ([0, 1, 2, 3, 4, 5, 6, 7, 8, 9, 10, 11, 12, 13, 14, 15],
   [0, 0, 0, 0, 0, 1, 1, 1, 1, 0, 0, 0, 0, 0, 1, 1])

/-- C2 (the code violates the claim): `PowerUpManager` has no attribute
`consume_locks_for_shuffle`, so when B uses SHUFFLE while A has an armed
lock, the branch raises AttributeError after regenerating the board: A's
snapshot is not promoted, the armed lock is not cleared, and no shuffle event
is broadcast.  `consume_locks` — the method the source defines — has exactly
the promote-and-clear semantics the claim describes, but nothing calls it. -/
theorem shuffle_crashes_before_consuming_locks :
    pumHasAttribute "consume_locks_for_shuffle" = false
    ∧ (use_powerup_shuffle engineShuf pmArmed "L" "B" (fun _ => vowelRoll)
        oracleFirst).error = some "AttributeError: consume_locks_for_shuffle"
    ∧ (use_powerup_shuffle engineShuf pmArmed "L" "B" (fun _ => vowelRoll)
        oracleFirst).broadcast = none
    ∧ (use_powerup_shuffle engineShuf pmArmed "L" "B" (fun _ => vowelRoll)
        oracleFirst).pm = pmArmed
    ∧ (consume_locks pmArmed "L").1 = [("A", catGrid)]
    ∧ (consume_locks pmArmed "L").2.armed_locks.lookup "L" = some []
    ∧ (consume_locks pmArmed "L").2.player_boards.lookup "L" = some [("A", catGrid)] := by
  decide

/-! ### C7: the blowup cell draw -/

/-- `size = 6` as hard-coded in the `blowup` branch of
`PowerUpManager.apply_powerup` (the source comment reads "Default, should
ideally pass current board size"). -/
def blowup_size : Nat := 6

/-- The `while len(cells) < 4` draw loop of the blowup branch; `draws` lists
the successive `(randint(0, size-1), randint(0, size-1))` pairs, and `none`
is returned when the supplied draws run out before 4 distinct cells are
collected. -/
def blowupLoop : List (Nat × Nat) → List (Nat × Nat) → Option (List (Nat × Nat))
  | [], cells => if 4 ≤ cells.length then some cells else none
  | d :: rest, cells =>
      if 4 ≤ cells.length then some cells
      else blowupLoop rest (if d ∈ cells then cells else cells ++ [d])

def blowup_cells (draws : List (Nat × Nat)) : Option (List (Nat × Nat)) :=
  blowupLoop draws []

def blowupDraws : List (Nat × Nat) := [(5, 5), (0, 0), (1, 1), (2, 2)]

/-- C7 (the code violates the claim): the draws are all legal outcomes of
`randint(0, 6-1)` — the hard-coded `size = 6` — and the loop returns 4
distinct cells, but on a lobby playing a 4x4 board the cell (5,5) lies
outside the board's 4x4 bounds. -/
theorem blowup_cells_can_leave_small_board :
    blowupDraws.all (fun d => d.1 < blowup_size && d.2 < blowup_size) = true
    ∧ blowup_cells blowupDraws = some [(5, 5), (0, 0), (1, 1), (2, 2)]
    ∧ ([(5, 5), (0, 0), (1, 1), (2, 2)] : List (Nat × Nat)).all
        (fun d => d.1 < 4 && d.2 < 4) = false
    ∧ ((5, 5) ∈ ([(5, 5), (0, 0), (1, 1), (2, 2)] : List (Nat × Nat))) := by decide

/-! ## game_engine.py : start_game, and the shared-generator consequence -/

/-- `GameEngine.start_game`: requires every player ready, then replaces the
engine-wide `board_gen` with a freshly generated `BoggleBoard(size =
lobby.board_size)`, stores its grid as the lobby board, and moves the lobby
to the countdown phase with `timer = 3` (the challenge attachment is outside
the claims). -/
def start_game (e : GameEngine) (lobby_id : String) (rolls : Nat → List Nat × List Nat)
    (o : RandOracle) : Bool × GameEngine :=
  match e.lobbies.lookup lobby_id with
  | none => (false, e)
  | some lobby =>
      if ¬ lobby.players.all (fun p => p.is_ready) then (false, e)
      else
        let grid := generateGrid lobby.board_size rolls o
        let bg : BoggleBoardState := { size := lobby.board_size, grid := grid }
        let e2 := setLobby e lobby_id
          { lobby with board := grid, status := "countdown", timer := 3 }
        (true, { e2 with board_gen := some bg })

/-- Replace only the stored board of one lobby, leaving every other lobby
field and the shared board generator untouched. -/
def setLobbyBoard (e : GameEngine) (lobby_id : String) (b : Grid) : GameEngine :=
  let ls := e.lobbies.map (fun q => if q.1 = lobby_id then (q.1, { q.2 with board := b }) else q)
  { e with lobbies := ls }

theorem submit_word_accept_uses_board_gen (e : GameEngine) (lobby_id player_id : String)
    (submission : WordSubmission) (pick : Nat) (points : Nat) (pw : Option String)
    (total : Nat)
    (h : (submit_word e lobby_id player_id submission pick).1
      = SubmitResult.accepted points pw total) :
    ∃ bg, e.board_gen = some bg
      ∧ is_word_on_board bg.size bg.grid (pyUpper submission.word) submission.path = true := by
  unfold submit_word at h
  repeat' split at h
  all_goals simp only [apply_ite Prod.fst] at h
  all_goals try split_ifs at h
  all_goals simp_all

def playerHost : PlayerModel :=
  { id := "H", username := "host", character := "owl", is_ready := true }

def lobbyOne : GameStateModel :=
  { lobby_id := "L1", status := "lobby", board := [], board_size := 4,
    players := [playerHost], host_id := "H" }

def lobbyTwo : GameStateModel :=
  { lobby_id := "L2", status := "playing", board := catGrid, board_size := 4,
    players := [playerB], host_id := "B" }

/-- Two independent lobbies sharing the one engine: L1 still in its lobby
phase, L2 mid-game on `catGrid`, with the shared generator currently holding
L2's grid. -/
def engineTwo : GameEngine :=
  { lobbies := [("L1", lobbyOne), ("L2", lobbyTwo)], word_set := ["CAT"],
    board_gen := some { size := 4, grid := catGrid } }

/-- C10: the engine holds a single shared board generator, and word
submissions are path-validated against it, not against the submitting lobby's
stored board.  First, generally: every accepted submission passed the
path/letter check on the grid held in `board_gen`.  Second, concretely: B's
CAT submission in playing lobby L2 is accepted; replacing L2's own stored
board by a board without a C changes nothing; and after `start_game` runs for
the other lobby L1 — which regenerates the shared `board_gen` and leaves L2's
stored board untouched — the same submission in L2 is rejected
"Word not on board". -/
theorem submit_word_validates_against_shared_generator :
    (∀ (e : GameEngine) (lobby_id player_id : String) (submission : WordSubmission)
        (pick : Nat) (points : Nat) (pw : Option String) (total : Nat),
        (submit_word e lobby_id player_id submission pick).1
            = SubmitResult.accepted points pw total →
        ∃ bg, e.board_gen = some bg
          ∧ is_word_on_board bg.size bg.grid (pyUpper submission.word) submission.path = true)
    ∧ (submit_word engineTwo "L2" "B" subCAT 0).1 = SubmitResult.accepted 4 none 4
    ∧ (submit_word (setLobbyBoard engineTwo "L2" plainEGrid) "L2" "B" subCAT 0).1
        = SubmitResult.accepted 4 none 4
    ∧ (start_game engineTwo "L1" (fun _ => vowelRoll) oracleFirst).1 = true
    ∧ (start_game engineTwo "L1" (fun _ => vowelRoll) oracleFirst).2.lobbies.lookup "L2"
        = some lobbyTwo
    ∧ (submit_word (start_game engineTwo "L1" (fun _ => vowelRoll) oracleFirst).2
        "L2" "B" subCAT 0).1 = SubmitResult.rejected "Word not on board" :=
  ⟨submit_word_accept_uses_board_gen, by decide, by decide, by decide, by decide, by decide⟩

/-- Witness for C10 at the accepted CAT submission on `engineCat`: the grid it
was checked on is the shared generator's. -/
theorem submit_word_validates_against_shared_generator_witness :
    ∃ bg, engineCat.board_gen = some bg
      ∧ is_word_on_board bg.size bg.grid (pyUpper subCAT.word) subCAT.path = true :=
  submit_word_validates_against_shared_generator.1 engineCat "L" "A" subCAT 0 4 none 4
    (by decide)

/-! ## game_engine.py : summary finalization (`finalize_scores`) -/

/-- A finder entry of `word_data[word]["finders"]`:
`(player_id, username, character)`. -/
abbrev Finder := String × String × String

/-- One step of the `word_data` build: create the entry on first sight of the
word, then append the finder (the source appends once per occurrence of the
word in a player's found_words). -/
def addFinder (wd : List (String × List Finder)) (w : String) (f : Finder) :
    List (String × List Finder) :=
  if wd.any (fun q => q.1 == w) then
    wd.map (fun q => if q.1 = w then (q.1, q.2 ++ [f]) else q)
  else wd ++ [(w, [f])]

/-- The double loop of `finalize_scores` building `word_data` over all
players and their found_words. -/
def buildWordData (players : List PlayerModel) : List (String × List Finder) :=
  players.foldl (fun wd p =>
    p.found_words.foldl (fun wd2 w => addFinder wd2 w (p.id, p.username, p.character)) wd) []

/-- `word_data[word]["points"]`: `calculate_word_score(word, is_unique)` with
`is_unique = (len(finders) == 1)`.  (The `none` default is unreachable for
words taken from a player's found_words.) -/
def wordPoints (wd : List (String × List Finder)) (w : String) : Nat :=
  match wd.lookup w with
  | some fs => calculate_word_score w (fs.length == 1)
  | none => 0

/-- The score-recomputation pass of `GameEngine.finalize_scores`: reset each
player's score and sum `word_data[word]["points"]` over their found_words,
then sort the results by score descending (Python's stable sort).  The
challenge and solver output fields of the summary payload do not affect the
scores and are not modelled; each result is the `(player_id, score)` view of
the result dict. -/
def finalize_results (players : List PlayerModel) : List (String × Nat) :=
  let wd := buildWordData players
  let results := players.map (fun p => (p.id, (p.found_words.map (wordPoints wd)).sum))
  List.insertionSort (fun a b => b.2 ≤ a.2) results

/-- The number of finder entries recorded for `w`. -/
def countFinders (wd : List (String × List Finder)) (w : String) : Nat :=
  match wd.lookup w with
  | some fs => fs.length
  | none => 0

/-- The number of players whose found_words contain `w` — the claim's
"exactly one player found that word" counts these. -/
def playersFound (players : List PlayerModel) (w : String) : Nat :=
  (players.filter (fun p => p.found_words.contains w)).length

/-- Total occurrences of `w` across all players' found_words. -/
def totalOccurrences (players : List PlayerModel) (w : String) : Nat :=
  (players.map (fun p => p.found_words.count w)).sum

theorem lookup_append_single {β : Type} (k a : String) (v : β) :
    ∀ wd : List (String × β),
      (wd ++ [(a, v)]).lookup k
        = match wd.lookup k with
          | some x => some x
          | none => if k = a then some v else none
  | [] => by
      by_cases h : k = a
      · simp [List.lookup, h]
      · have hba : (k == a) = false := beq_eq_false_iff_ne.mpr h
        simp [List.lookup, hba, h]
  | (qk, qv) :: rest => by
      have ih := lookup_append_single k a v rest
      by_cases h : k = qk
      · simp [List.lookup, h]
      · have hbq : (k == qk) = false := beq_eq_false_iff_ne.mpr h
        simp [List.lookup, hbq, ih]

theorem lookup_cons_eq {β : Type} (k a : String) (v : β) (rest : List (String × β)) :
    List.lookup k ((a, v) :: rest) = if k = a then some v else List.lookup k rest := by
  by_cases h : k = a
  · simp [List.lookup, h]
  · have hba : (k == a) = false := beq_eq_false_iff_ne.mpr h
    simp [List.lookup, hba, h]

theorem lookup_map_appendFinder (w k : String) (f : Finder) :
    ∀ wd : List (String × List Finder),
      (wd.map (fun q => if q.1 = w then (q.1, q.2 ++ [f]) else q)).lookup k
        = if k = w then (wd.lookup k).map (fun fs => fs ++ [f]) else wd.lookup k
  | [] => by by_cases h : k = w <;> simp [List.lookup, h]
  | (qk, qv) :: rest => by
      have ih := lookup_map_appendFinder w k f rest
      have hhead : (if (qk, qv).1 = w then ((qk, qv).1, (qk, qv).2 ++ [f]) else (qk, qv))
          = if qk = w then (qk, qv ++ [f]) else (qk, qv) := rfl
      rw [List.map_cons, hhead]
      by_cases hq : qk = w
      · rw [if_pos hq]
        by_cases hk : k = qk
        · subst hk
          simp [lookup_cons_eq, hq]
        · have hkw : ¬ k = w := fun hh => hk (hh.trans hq.symm)
          simp [lookup_cons_eq, hk, hkw, ih]
      · rw [if_neg hq]
        by_cases hk : k = qk
        · subst hk
          simp [lookup_cons_eq, hq]
        · simp [lookup_cons_eq, hk, ih]

theorem lookup_eq_none_of_any_eq_false {β : Type} (k : String) :
    ∀ wd : List (String × β), wd.any (fun q => q.1 == k) = false → wd.lookup k = none
  | [], _ => rfl
  | (qk, qv) :: rest, h => by
      simp only [List.any_cons, Bool.or_eq_false_iff] at h
      have hne : ¬ qk = k := by simpa using h.1
      have hbq : (k == qk) = false := beq_eq_false_iff_ne.mpr (fun hh => hne hh.symm)
      simp only [List.lookup, hbq]
      exact lookup_eq_none_of_any_eq_false k rest h.2

theorem lookup_isSome_of_any_eq_true {β : Type} (k : String) :
    ∀ wd : List (String × β), wd.any (fun q => q.1 == k) = true → wd.lookup k ≠ none
  | [], h => by simp at h
  | (qk, qv) :: rest, h => by
      by_cases hk : k = qk
      · simp [List.lookup, hk]
      · have hbq : (k == qk) = false := beq_eq_false_iff_ne.mpr hk
        have hq : (qk == k) = false := beq_eq_false_iff_ne.mpr (fun hh => hk hh.symm)
        simp only [List.any_cons, hq, Bool.false_or] at h
        simp only [List.lookup, hbq]
        exact lookup_isSome_of_any_eq_true k rest h

theorem countFinders_addFinder (w k : String) (f : Finder)
    (wd : List (String × List Finder)) :
    countFinders (addFinder wd w f) k
      = countFinders wd k + (if k = w then 1 else 0) := by
  unfold addFinder countFinders
  cases hany : wd.any (fun q => q.1 == w) with
  | true =>
      simp only [hany, if_true]
      rw [lookup_map_appendFinder]
      by_cases hk : k = w
      · subst hk
        simp only [if_pos rfl]
        cases hlk : wd.lookup k with
        | none => exact absurd hlk (lookup_isSome_of_any_eq_true k wd hany)
        | some fs => simp
      · simp [hk]
  | false =>
      simp only [hany, Bool.false_eq_true, if_false]
      rw [lookup_append_single]
      have hnone := lookup_eq_none_of_any_eq_false w wd hany
      by_cases hk : k = w
      · subst hk
        rw [hnone]
        simp
      · cases hlk : wd.lookup k with
        | none => simp [hlk, hk]
        | some fs => simp [hlk, hk]

theorem countFinders_foldWords (f : Finder) (k : String) :
    ∀ (ws : List String) (wd : List (String × List Finder)),
      countFinders (ws.foldl (fun wd2 w => addFinder wd2 w f) wd) k
        = countFinders wd k + ws.count k
  | [], wd => by simp
  | w :: ws, wd => by
      rw [List.foldl_cons, countFinders_foldWords f k ws (addFinder wd w f),
        countFinders_addFinder]
      by_cases h : k = w
      · subst h
        simp [List.count_cons]
        omega
      · have hbw : (w == k) = false := beq_eq_false_iff_ne.mpr (fun hh => h hh.symm)
        simp [List.count_cons, h, hbw]

theorem countFinders_foldPlayers (k : String) :
    ∀ (players : List PlayerModel) (wd : List (String × List Finder)),
      countFinders (players.foldl (fun wdAcc p =>
          p.found_words.foldl
            (fun wd2 w => addFinder wd2 w (p.id, p.username, p.character)) wdAcc) wd) k
        = countFinders wd k + totalOccurrences players k
  | [], wd => by simp [totalOccurrences]
  | p :: ps, wd => by
      rw [List.foldl_cons, countFinders_foldPlayers k ps _, countFinders_foldWords]
      simp only [totalOccurrences, List.map_cons, List.sum_cons]
      omega

theorem countFinders_eq_totalOccurrences (players : List PlayerModel) (k : String) :
    countFinders (buildWordData players) k = totalOccurrences players k := by
  have h := countFinders_foldPlayers k players []
  have h0 : countFinders [] k = 0 := rfl
  rw [h0, Nat.zero_add] at h
  exact h

theorem totalOccurrences_eq_playersFound (players : List PlayerModel) (k : String)
    (hnd : ∀ p ∈ players, p.found_words.Nodup) :
    totalOccurrences players k = playersFound players k := by
  induction players with
  | nil => rfl
  | cons p ps ih =>
      have hp := hnd p (List.mem_cons_self p ps)
      have ihp := ih (fun q hq => hnd q (List.mem_cons_of_mem _ hq))
      by_cases hm : k ∈ p.found_words
      · have h1 : p.found_words.count k = 1 := List.count_eq_one_of_mem hp hm
        have hc : p.found_words.contains k = true := by simpa using hm
        simp only [totalOccurrences, playersFound, List.map_cons, List.sum_cons,
          List.filter_cons, hc, if_true, List.length_cons] at *
        omega
      · have h0 : p.found_words.count k = 0 := List.count_eq_zero_of_not_mem hm
        have hc : p.found_words.contains k = false := by simpa using hm
        simp only [totalOccurrences, playersFound, List.map_cons, List.sum_cons,
          List.filter_cons, hc, Bool.false_eq_true, if_false] at *
        omega

theorem wordPoints_eq (wd : List (String × List Finder)) (w : String)
    (h : countFinders wd w ≠ 0) :
    wordPoints wd w = calculate_word_score w (countFinders wd w == 1) := by
  unfold wordPoints countFinders
  unfold countFinders at h
  cases hlk : wd.lookup w with
  | none => rw [hlk] at h; simp at h
  | some fs => rfl

/-- C4 amended: at summary finalization each player's final score is the sum
over their found_words of `calculate_word_score(word, is_unique)`, where
`is_unique` holds exactly when one player found the word; a uniquely found
word is thus worth `floor(floor(base * mult) * 1.5)` — floor, not
`ceil(base * mult * 1.5)` — and a word found by two or more players is worth
the non-unique score to each finder. -/
theorem finalize_scores_unique_bonus (players : List PlayerModel)
    (hnd : ∀ p ∈ players, p.found_words.Nodup) (p : PlayerModel) (hp : p ∈ players) :
    (p.id, (p.found_words.map (fun w =>
        calculate_word_score w (playersFound players w == 1))).sum)
      ∈ finalize_results players := by
  have hmapeq : p.found_words.map (wordPoints (buildWordData players))
      = p.found_words.map
          (fun w => calculate_word_score w (playersFound players w == 1)) := by
    apply List.map_congr_left
    intro w hw
    have hcf : countFinders (buildWordData players) w = playersFound players w :=
      (countFinders_eq_totalOccurrences players w).trans
        (totalOccurrences_eq_playersFound players w hnd)
    have hpos : playersFound players w ≠ 0 := by
      have hmf : p ∈ players.filter (fun q => q.found_words.contains w) :=
        List.mem_filter.mpr ⟨hp, by simpa using hw⟩
      have hlen := List.length_pos_of_mem hmf
      unfold playersFound
      omega
    rw [wordPoints_eq _ _ (by rw [hcf]; exact hpos), hcf]
  have hmem : (p.id, (p.found_words.map (wordPoints (buildWordData players))).sum)
      ∈ players.map (fun q =>
          (q.id, (q.found_words.map (wordPoints (buildWordData players))).sum)) :=
    List.mem_map_of_mem _ hp
  rw [hmapeq] at hmem
  unfold finalize_results
  exact ((List.perm_insertionSort _ _).mem_iff).mpr hmem

def playerTOT : PlayerModel :=
  { id := "T", username := "tom", character := "fox", found_words := ["TOT"] }

/-- `ceil(base(w) * mult * 1.5)` exactly as the claim words the unique award,
written with exact natural ceiling divisions
(`ceil(a / b) = (a + b - 1) / b`). -/
def claimUniqueCeil (w : String) : Nat :=
  let b := claimBase w
  let n := w.length
  if n < 3 then 0
  else if n = 3 then (b * 3 + 1) / 2
  else if n = 4 then (b * 9 + 4) / 5
  else if n = 5 then (b * 9 + 3) / 4
  else if n = 6 then b * 3
  else (b * 9 + 1) / 2

/-- C4 counterexample: a lone player whose only word is TOT (base 3, length 3,
found uniquely) is awarded floor(floor(3 * 1.0) * 1.5) = 4 points at summary,
not the claim's ceil(3 * 1.0 * 1.5) = 5. -/
theorem finalize_unique_award_not_ceil :
    finalize_results [playerTOT] = [("T", 4)]
    ∧ claimUniqueCeil "TOT" = 5 ∧ (4 : Nat) ≠ 5 := by decide

def playerAnn : PlayerModel :=
  { id := "N", username := "ann", character := "cat", found_words := ["CAT", "TOT"] }

def playerBen : PlayerModel :=
  { id := "E", username := "ben", character := "dog", found_words := ["CAT"] }

def playersPair : List PlayerModel := [playerAnn, playerBen]

/-- Witness for the amended C4: with CAT found by both players and TOT only by
Ann, Ann's summary entry carries the sum of the shared score for CAT and the
unique score for TOT. -/
theorem finalize_scores_unique_bonus_witness :
    (playerAnn.id, (playerAnn.found_words.map (fun w =>
        calculate_word_score w (playersFound playersPair w == 1))).sum)
      ∈ finalize_results playersPair :=
  finalize_scores_unique_bonus playersPair (by decide) playerAnn (by decide)

end FamilyBoggle
